import Mathlib

/-!
Shallow embedding of the configuration-resolution and authenticated-dispatch
core of the `node-sdk-core` repository (files `src/lib/base-service.ts`,
`src/lib/helper.ts` and the credentials-file reader), together with theorems
settling the frozen claims about it.

JavaScript strings manipulated character-wise (URLs, templates) are modelled
as `List Char`; strings used only as opaque keys, paths and messages are
modelled as `String`.  Thrown errors and rejected promises are modelled with
`Except`; logging is modelled by returning the logged information alongside
the result.
-/

namespace NodeSdkCore

/-- Character-level model of a JavaScript string. -/
abbrev Str := List Char

/-- The character `{` (written via its code point to keep literals simple). -/
def lbrace : Char := Char.ofNat 123

/-- The character `}` (written via its code point to keep literals simple). -/
def rbrace : Char := Char.ofNat 125

/-- A JavaScript runtime value, as far as the validated parameter maps and
option bags need: `undefined`, `null`, booleans, numbers, strings and arrays
(`list`).  Objects other than arrays never reach the modelled predicates. -/
inductive JsVal where
  | undef
  | null
  | bool (b : Bool)
  | num (n : Int)
  | str (s : String)
  | list (xs : List JsVal)

/-! ### helper.ts : stripTrailingSlash -/

/-- `helper.ts` line 90-93: `url.replace(/\/$/, '')` — removes a single
trailing `/` when one is present (the regex is anchored at the end and
`replace` replaces at most one match). -/
def stripTrailingSlash (url : Str) : Str :=
  match url.reverse with
  | '/' :: rest => rest.reverse
  | _ => url

/-- `true` when the modelled string ends in `/`. -/
def endsSlash (s : Str) : Bool :=
  match s.reverse with
  | '/' :: _ => true
  | _ => false

/-- `true` when the modelled string ends in `//`. -/
def endsDoubleSlash (s : Str) : Bool :=
  match s.reverse with
  | '/' :: '/' :: _ => true
  | _ => false

/-! ### base-service.ts : normalized options -/

/-- The normalized option record held by a `BaseService` instance
(`baseOptions` in `base-service.ts`).  Beyond the six fields that
`configureService` can touch, representative unrelated fields (`headers`,
`qs`, `version`, `jar`) and an open extension bag (`extra`, the
`[propName: string]: any` part) are carried so that frame properties can be
stated. -/
structure BaseServiceOptions where
  serviceUrl : Option Str
  disableSslVerification : Bool
  enableGzipCompression : Option Bool
  enableRetries : Option Bool
  maxRetries : Option Nat
  retryInterval : Option Nat
  headers : List (String × String)
  qs : List (String × String)
  version : Option String
  jar : Option Bool
  extra : List (String × String)
deriving DecidableEq

/-- JavaScript truthiness of an optional string: `undefined` and `''` are
falsy, every other string is truthy. -/
def jsTruthyStr (o : Option Str) : Bool :=
  match o with
  | some s => !s.isEmpty
  | none => false

/-- `base-service.ts` lines 94-125, restricted to the data flow that decides
the stored `serviceUrl`: the legacy `url`→`serviceUrl` compatibility copy,
the trailing-slash strip of a truthy `serviceUrl` into `baseServiceOptions`,
and the final spread `{ serviceUrl: DEFAULT_SERVICE_URL, ...options,
...baseServiceOptions }`. -/
def constructorServiceUrl (defaultUrl url0 serviceUrl0 : Option Str) : Option Str :=
  let su : Option Str :=
    if jsTruthyStr url0 && !jsTruthyStr serviceUrl0 then url0 else serviceUrl0
  let bso : Option Str :=
    match su with
    | some s => if !s.isEmpty then some (stripTrailingSlash s) else none
    | none => none
  match bso with
  | some t => some t
  | none =>
    match su with
    | some s => some s
    | none => defaultUrl

/-- `base-service.ts` lines 151-155: `setServiceUrl` strips a trailing slash
and stores the URL, doing nothing when the argument is falsy. -/
def setServiceUrl (opts : BaseServiceOptions) (url : Str) : BaseServiceOptions :=
  if !url.isEmpty then { opts with serviceUrl := some (stripTrailingSlash url) } else opts

/-- The record returned by the external `readExternalSources` collaborator
(code outside this repository): each recognized key is either absent
(`none`, JavaScript `undefined`) or present with a value. -/
structure ExternalProps where
  url : Option Str
  disableSsl : Option Bool
  enableGzip : Option Bool
  enableRetries : Option Bool
  maxRetries : Option Nat
  retryInterval : Option Nat
deriving DecidableEq

/-- The partial record built by `readOptionsFromExternalConfig`: a key is
`some` exactly when the source code assigned it into `results`. -/
structure ConfigPatch where
  serviceUrl : Option Str := none
  disableSslVerification : Option Bool := none
  enableGzipCompression : Option Bool := none
  enableRetries : Option Bool := none
  maxRetries : Option Nat := none
  retryInterval : Option Nat := none
deriving DecidableEq

/-- `base-service.ts` lines 260-293: builds the patch from the external
properties.  `readExternalSources` returning `null` is modelled by the
argument being `none`. -/
def readOptionsFromExternalConfig (properties : Option ExternalProps) : ConfigPatch :=
  match properties with
  | none => {}
  | some p =>
    { serviceUrl :=
        match p.url with
        | some u => if !u.isEmpty then some (stripTrailingSlash u) else none
        | none => none
      disableSslVerification := if p.disableSsl = some true then some true else none
      enableGzipCompression := if p.enableGzip = some true then some true else none
      enableRetries := p.enableRetries
      maxRetries := p.maxRetries
      retryInterval := p.retryInterval }

/-- `Object.assign(this.baseOptions, results)`: only the keys present in the
patch overwrite the live options. -/
def objectAssign (opts : BaseServiceOptions) (patch : ConfigPatch) : BaseServiceOptions :=
  { opts with
    serviceUrl := match patch.serviceUrl with | some u => some u | none => opts.serviceUrl
    disableSslVerification :=
      match patch.disableSslVerification with | some b => b | none => opts.disableSslVerification
    enableGzipCompression :=
      match patch.enableGzipCompression with | some b => some b | none => opts.enableGzipCompression
    enableRetries := match patch.enableRetries with | some b => some b | none => opts.enableRetries
    maxRetries := match patch.maxRetries with | some n => some n | none => opts.maxRetries
    retryInterval :=
      match patch.retryInterval with | some n => some n | none => opts.retryInterval }

/-- `base-service.ts` lines 213-223: `configureService` throws when no
service name is supplied, otherwise overlays the externally sourced patch
onto the live options.  The external fetch is the function argument
`external` (its code lives outside this repository). -/
def configureService (serviceName : String) (external : Option ExternalProps)
    (opts : BaseServiceOptions) : Except String BaseServiceOptions :=
  if serviceName = "" then
    Except.error "Error configuring service. Service name is required."
  else
    Except.ok (objectAssign opts (readOptionsFromExternalConfig external))

/-! ### helper.ts : validateParams -/

/-- JavaScript property read `params[key]` on the parameter map: the first
binding wins, an absent key reads as `undefined`. -/
def lookupJs (ps : List (String × JsVal)) (k : String) : JsVal :=
  match ps.find? (fun p => p.1 = k) with
  | some p => p.2
  | none => JsVal.undef

/-- `helper.ts` lines 202-204: `value === undefined || value === null ||
value === ''`. -/
def isMissing (v : JsVal) : Bool :=
  match v with
  | JsVal.undef => true
  | JsVal.null => true
  | JsVal.str s => s = ""
  | _ => false

/-- The aggregated message built by `validateParams` (lines 184-190). -/
def validationErrorMessage (missing invalid : List String) : String :=
  "Parameter validation errors:"
    ++ (if !missing.isEmpty then
          "\n  Missing required parameters: " ++ String.intercalate ", " missing
        else "")
    ++ (if !invalid.isEmpty then
          "\n  Found invalid parameters: " ++ String.intercalate ", " invalid
        else "")

/-- `helper.ts` lines 148-193.  A `none` argument models a `null`/`undefined`
value in JavaScript; `none` as result models the returned `null`, `some msg`
models the returned `Error` with message `msg`. -/
def validateParams (params : Option (List (String × JsVal)))
    (requiredParams : Option (List String)) (allParams : Option (List String)) :
    Option String :=
  let missing : List String :=
    match requiredParams with
    | none => []
    | some req =>
      match params with
      | none => req
      | some ps => req.filter (fun r => isMissing (lookupJs ps r))
  let invalid : List String :=
    match allParams, params with
    | some all, some ps => (ps.map Prod.fst).filter (fun k => !all.contains k)
    | _, _ => []
  if missing.isEmpty && invalid.isEmpty then none
  else some (validationErrorMessage missing invalid)

/-- The missing-required list as the specification words it: required names
whose value is absent, `null`, or the empty string. -/
def specMissingList (ps : List (String × JsVal)) (req : List String) : List String :=
  req.filter (fun k =>
    match lookupJs ps k with
    | JsVal.undef => true
    | JsVal.null => true
    | JsVal.str s => s = ""
    | _ => false)

/-- The invalid-parameter list as the specification words it: keys of the
parameter map absent from the allowed list. -/
def specInvalidList (ps : List (String × JsVal)) (all : List String) : List String :=
  (ps.map Prod.fst).filter (fun k => !all.contains k)

/-! ### base-service.ts : createRequest -/

/-- The per-request default options (`parameters.defaultOptions`): the service
URL slot may hold any JavaScript value, and the headers may be mutated by the
authenticator. -/
structure DefaultOptions where
  serviceUrl : JsVal
  headers : List (String × String)

/-- A request description passed to `createRequest`; `defaultOptions` may be
absent (`undefined`). -/
structure RequestParameters where
  defaultOptions : Option DefaultOptions
  options : List (String × JsVal)

/-- Observable invocations of the two collaborators of the dispatcher. -/
inductive DispatchEvent where
  | authenticate
  | sendRequest
deriving DecidableEq

/-- `base-service.ts` lines 246-257.  The authenticator and the transport are
the function arguments; the returned list records which collaborators were
invoked, in order.  An `Except.error` result models a rejected promise —
`createRequest` itself never throws in this data flow, which the model
reflects by being a total function. -/
def createRequest {ρ : Type} (authenticate : DefaultOptions → Except String DefaultOptions)
    (sendRequest : RequestParameters → Except String ρ)
    (parameters : RequestParameters) : Except String ρ × List DispatchEvent :=
  match parameters.defaultOptions with
  | none => (Except.error "The service URL is required", [])
  | some d =>
    match d.serviceUrl with
    | JsVal.str s =>
      if s = "" then (Except.error "The service URL is required", [])
      else
        match authenticate d with
        | Except.error e => (Except.error e, [DispatchEvent.authenticate])
        | Except.ok d' =>
          (sendRequest { parameters with defaultOptions := some d' },
            [DispatchEvent.authenticate, DispatchEvent.sendRequest])
    | _ => (Except.error "The service URL is required", [])

/-- Whether the request description carries a non-empty string service URL
(the acceptance condition of `createRequest`'s precondition check
`!serviceUrl || typeof serviceUrl !== 'string'`). -/
def hasValidServiceUrl (p : RequestParameters) : Bool :=
  match p.defaultOptions with
  | some d =>
    match d.serviceUrl with
    | JsVal.str s => !(s = "")
    | _ => false
  | none => false

/-! ### the credentials-file reader (`src/unnamed/part_000`) -/

/-- Whether `pat` is a prefix of `s` (character-wise). -/
def hasPrefixL (pat s : Str) : Bool :=
  match pat, s with
  | [], _ => true
  | _ :: _, [] => false
  | p :: ps, c :: cs => p = c && hasPrefixL ps cs

/-- `String.prototype.endsWith`, character-wise. -/
def endsWithStr (s suffix : String) : Bool :=
  hasPrefixL suffix.data.reverse s.data.reverse

/-- Split a character list at every occurrence of `sep`. -/
def splitOnChar (sep : Char) : List Char → List (List Char)
  | [] => [[]]
  | c :: rest =>
    match splitOnChar sep rest with
    | [] => [[c]]
    | g :: gs => if c = sep then [] :: g :: gs else (c :: g) :: gs

/-- Strip surrounding whitespace from a character list. -/
def trimChars (cs : List Char) : List Char :=
  ((cs.dropWhile (fun c => c = ' ' || c = '\t' || c = '\r')).reverse.dropWhile
      (fun c => c = ' ' || c = '\t' || c = '\r')).reverse

/-- Split a line at its first `=`, when it has one. -/
def splitAtFirstEq : List Char → Option (List Char × List Char)
  | [] => none
  | c :: rest =>
    if c = '=' then some ([], rest)
    else (splitAtFirstEq rest).map (fun p => (c :: p.1, p.2))

/-- A filesystem entry: a regular file (or symlink) with contents, or a
directory. -/
inductive FsEntry where
  | file (contents : String)
  | dir
deriving DecidableEq

/-- The filesystem visible to the reader: a finite map from absolute path to
entry. -/
abbrev FileSystem := List (String × FsEntry)

/-- `existsSync` + `lstatSync(..).isFile() || isSymbolicLink()` as combined in
`fileExistsAtPath` (part_000 lines 72-79). -/
def fileExistsAtPath (fs : FileSystem) (filepath : String) : Bool :=
  match fs.find? (fun e => e.1 = filepath) with
  | some (_, FsEntry.file _) => true
  | some (_, FsEntry.dir) => false
  | none => false

/-- The contents of a regular file at a path, when one is there. -/
def readFileContent (fs : FileSystem) (filepath : String) : Option String :=
  match fs.find? (fun e => e.1 = filepath) with
  | some (_, FsEntry.file c) => some c
  | _ => none

/-- part_000 line 26. -/
def defaultCredsFilename : String := "ibm-credentials.env"

/-- part_000 lines 81-88: append the default file name unless the path
already ends with it.  `path.join` is modelled as `/`-concatenation. -/
def constructFilepath (filepath : String) : String :=
  if endsWithStr filepath defaultCredsFilename then filepath
  else filepath ++ "/" ++ defaultCredsFilename

/-- The process environment the reader consults. -/
structure Environment where
  ibmCredentialsFile : Option String
  cwd : String
  home : String

/-- Modelled from the external `dotenv` dependency, per the specification:
the file is parsed as newline-separated `key=value` assignments. -/
def parseDotenv (contents : String) : List (String × String) :=
  (splitOnChar '\n' contents.data).filterMap (fun line =>
    (splitAtFirstEq line).map (fun p =>
      (String.mk (trimChars p.1), String.mk (trimChars p.2))))

instance {ε α : Type} [DecidableEq ε] [DecidableEq α] : DecidableEq (Except ε α) := fun
  | Except.error e, Except.error f => decidable_of_iff (e = f) (by simp)
  | Except.error _, Except.ok _ => isFalse (by simp)
  | Except.ok _, Except.error _ => isFalse (by simp)
  | Except.ok a, Except.ok b => decidable_of_iff (a = b) (by simp)

/-- Outcome of `readCredentialsFile`: the returned record or the thrown
error, plus whether the informational "Credential file does not exist"
message was logged. -/
structure CredentialsFileResult where
  result : Except String (List (String × String))
  infoLogged : Bool
deriving DecidableEq

/-- `readFileSync(filepathToUse)` where `filepathToUse` may have been left
`undefined`: Node then throws a `TypeError` before touching the disk. -/
def readAndParse (fs : FileSystem) (filepathToUse : Option String) : CredentialsFileResult :=
  match filepathToUse with
  | none =>
    { result := Except.error "TypeError: path must be a string or Buffer. Received undefined"
      infoLogged := false }
  | some fp =>
    match readFileContent fs fp with
    | some c => { result := Except.ok (parseDotenv c), infoLogged := false }
    | none =>
      { result := Except.error ("ENOENT: no such file or directory, open " ++ fp)
        infoLogged := false }

/-- part_000 lines 32-70: `readCredentialsFile`.  Note that when
`IBM_CREDENTIALS_FILE` is set but neither it nor `<it>/ibm-credentials.env`
exists, `filepathToUse` is never assigned, the informational branch is not
reached, and `readFileSync(undefined)` is evaluated. -/
def readCredentialsFile (env : Environment) (fs : FileSystem) : CredentialsFileResult :=
  let givenFilepath : String := env.ibmCredentialsFile.getD ""
  let workingDir : String := constructFilepath env.cwd
  let homeDir : String := constructFilepath env.home
  if givenFilepath ≠ "" then
    if fileExistsAtPath fs givenFilepath then
      readAndParse fs (some givenFilepath)
    else if fileExistsAtPath fs (constructFilepath givenFilepath) then
      readAndParse fs (some (constructFilepath givenFilepath))
    else
      readAndParse fs none
  else if fileExistsAtPath fs workingDir then
    readAndParse fs (some workingDir)
  else if fileExistsAtPath fs homeDir then
    readAndParse fs (some homeDir)
  else
    { result := Except.ok [], infoLogged := true }

/-- Outcome of `readCrTokenFile`: the returned token or the thrown error,
plus the diagnostic written through `logger.error`. -/
structure CrTokenResult where
  result : Except String String
  errorLog : Option String
deriving DecidableEq

/-- part_000 lines 90-112: `readCrTokenFile`. -/
def readCrTokenFile (fs : FileSystem) (filepath : String) : CrTokenResult :=
  let fileExists : Bool := fileExistsAtPath fs filepath
  let token : String := if fileExists then (readFileContent fs filepath).getD "" else ""
  if token = "" then
    { result := Except.error ("Unable to retrieve the CR token value from file: " ++ filepath)
      errorLog := some (if fileExists then
          "Expected to read CR token from file but the file is empty: " ++ filepath
        else
          "Expected to find CR token file but the file does not exist: " ++ filepath) }
  else
    { result := Except.ok token, errorLog := none }

/-! ### helper.ts : buildRequestFileObject -/

/-- Metadata options attached to a canonical file object. -/
structure FileOptions where
  filename : Option String := none
  contentType : Option String := none
deriving DecidableEq

/-- A JavaScript value that can sit in the `data`/`value` slots of a file
parameter: a byte buffer, a readable stream (with its optional `path`
property), a string, `undefined`, or an already canonical
`{ value, options }` file object. -/
inductive FileValue where
  | buffer (bytes : List Nat)
  | stream (readable : Bool) (path : Option String)
  | str (s : String)
  | undef
  | fileObj (value : FileValue) (options : Option FileOptions)
deriving DecidableEq

/-- The canonical `FileObject` shape produced by the builder. -/
structure FileObject where
  value : FileValue
  options : FileOptions
deriving DecidableEq

/-- JavaScript truthiness of a `FileValue` (objects are truthy, `''` and
`undefined` are falsy). -/
def jsTruthyFile (v : FileValue) : Bool :=
  match v with
  | FileValue.str s => !(s = "")
  | FileValue.undef => false
  | _ => true

/-- JavaScript `a || b` on optional strings (`''` and `undefined` falsy). -/
def jsOrStr (a b : Option String) : Option String :=
  match a with
  | some s => if s = "" then b else some s
  | none => b

/-- The two external content-type oracles: `mime-types`' `lookup` (by path)
and `file-type`'s `fromBuffer` (by leading bytes). -/
structure Sniffers where
  lookupMime : String → Option String
  fromBuffer : List Nat → Option String

/-- `helper.ts` lines 50-52: readable stream with a truthy `path`. -/
def isFileStream (v : FileValue) : Bool :=
  match v with
  | FileValue.stream readable (some p) => readable && !(p = "")
  | _ => false

/-- `helper.ts` lines 58-60: readable stream or buffer. -/
def isFileData (v : FileValue) : Bool :=
  match v with
  | FileValue.stream readable _ => readable
  | FileValue.buffer _ => true
  | _ => false

/-- The `path` property of a stream value. -/
def streamPath (v : FileValue) : Option String :=
  match v with
  | FileValue.stream _ p => p
  | _ => none

/-- `helper.ts` lines 71-83: `getContentType`, with the two external
libraries supplied as `Sniffers`. -/
def getContentType (sn : Sniffers) (inputData : FileValue) : Option String :=
  if isFileStream inputData then
    match streamPath inputData with
    | some p => sn.lookupMime p
    | none => none
  else
    match inputData with
    | FileValue.buffer b => sn.fromBuffer b
    | _ => none

/-- Node's `path.basename`: drop trailing slashes, then keep the part after
the last remaining slash. -/
def basenameModel (s : String) : String :=
  let l := s.data.reverse.dropWhile (fun c => c = '/')
  String.mk (l.takeWhile (fun c => !(c = '/'))).reverse

/-- `Buffer.from(string)` modelled as the list of code points. -/
def stringToBytes (s : String) : List Nat := s.data.map Char.toNat

/-- The file parameter handed to the builder (`FileWithMetadata` in
`helper.ts`): the data plus the explicitly supplied metadata, each possibly
`undefined`. -/
structure FileWithMetadata where
  data : FileValue
  filename : Option String := none
  contentType : Option String := none
deriving DecidableEq

/-- `helper.ts` lines 244-262: the canonicalization step of
`buildRequestFileObject`. -/
def canonicalShape (fileParam : FileWithMetadata) : FileObject :=
  match fileParam.data with
  | FileValue.fileObj v opts =>
    if jsTruthyFile v then
      match opts with
      | some o =>
        { value := v
          options := { filename := jsOrStr fileParam.filename o.filename
                       contentType := jsOrStr fileParam.contentType o.contentType } }
      | none => { value := v, options := {} }
    else
      { value := fileParam.data
        options := { filename := fileParam.filename, contentType := fileParam.contentType } }
  | d => { value := d, options := { filename := fileParam.filename, contentType := fileParam.contentType } }

/-- `helper.ts` lines 264-267: a string value is coerced to a buffer. -/
def coerceStringValue (f : FileObject) : FileObject :=
  match f.value with
  | FileValue.str s => { f with value := FileValue.buffer (stringToBytes s) }
  | _ => f

/-- `helper.ts` lines 269-277: resolve the filename (explicit option, else a
stream's path, else the placeholder), applying `basename`. -/
def resolveFilename (f : FileObject) : FileObject :=
  let filename0 : Option String := f.options.filename
  let filename1 : Option String :=
    if (match filename0 with | some s => !(s = "") | none => false) then filename0
    else if isFileStream f.value then streamPath f.value
    else filename0
  let finalName : String :=
    match filename1 with
    | some s => if s = "" then "_" else basenameModel s
    | none => "_"
  { f with options := { f.options with filename := some finalName } }

/-- `helper.ts` lines 279-283: resolve the content type by sniffing when none
was supplied, defaulting to the generic octet-stream type. -/
def resolveContentType (sn : Sniffers) (f : FileObject) : FileObject :=
  let ctFalsy : Bool :=
    match f.options.contentType with
    | some c => c = ""
    | none => true
  let newContentType : Option String :=
    if ctFalsy && isFileData f.value then
      some (match getContentType sn f.value with
        | some m => if m = "" then "application/octet-stream" else m
        | none => "application/octet-stream")
    else f.options.contentType
  { f with options := { f.options with contentType := newContentType } }

/-- `helper.ts` lines 243-286: `buildRequestFileObject`.  The file parameter
is `(data, filename, contentType)`; the suspension point (buffer sniffing)
is immaterial to the value computed, so the model is a plain function. -/
def buildRequestFileObject (sn : Sniffers) (fileParam : FileWithMetadata) : FileObject :=
  resolveContentType sn (resolveFilename (coerceStringValue (canonicalShape fileParam)))

/-! ### helper.ts : constructServiceUrl -/

/-- The single-quote character (written via its code point). -/
def squote : Char := Char.ofNat 39

/-- The backquote character (written via its code point). -/
def backquote : Char := Char.ofNat 96

/-- The dollar character. -/
def dollar : Char := '$'

/-- ECMA-262 `GetSubstitution` for a string (non-regexp) pattern: the
replacement string is scanned for the dollar escapes `$$` (a dollar), `$&`
(the matched pattern), a dollar-backquote pair (the part of the subject
before the match) and a dollar-quote pair (the part after the match); any
other dollar (including `$n` with no capture groups and `$<` with no named
captures) is passed through literally. -/
def getSubstitution (matched before after : Str) : Str → Str
  | [] => []
  | c :: rest =>
    if c = dollar then
      match rest with
      | [] => [c]
      | d :: rest2 =>
        if d = dollar then dollar :: getSubstitution matched before after rest2
        else if d = '&' then matched ++ getSubstitution matched before after rest2
        else if d = backquote then before ++ getSubstitution matched before after rest2
        else if d = squote then after ++ getSubstitution matched before after rest2
        else c :: getSubstitution matched before after (d :: rest2)
    else c :: getSubstitution matched before after rest

/-- The first occurrence of `pat` in a string, as the split
`(before, after)` around it, or `none` when `pat` does not occur. -/
def firstOccSplit (pat : Str) : Str → Option (Str × Str)
  | [] => if hasPrefixL pat [] then some ([], []) else none
  | c :: rest =>
    if hasPrefixL pat (c :: rest) then some ([], (c :: rest).drop pat.length)
    else (firstOccSplit pat rest).map (fun p => (c :: p.1, p.2))

/-- JavaScript `String.prototype.replace` with a string pattern: replace the
first occurrence of `pat` in `s` by the `GetSubstitution` expansion of
`repl`, or return `s` unchanged when `pat` does not occur. -/
def replaceFirst (s pat repl : Str) : Str :=
  match firstOccSplit pat s with
  | none => s
  | some (before, after) => before ++ getSubstitution pat before after repl ++ after

/-- Literal one-occurrence replacement, as the specification words the
substitution step (the placeholder is replaced "with that value"). -/
def replaceFirstLiteral (s pat repl : Str) : Str :=
  match firstOccSplit pat s with
  | none => s
  | some (before, after) => before ++ repl ++ after

/-- A string containing no dollar character, on which the `GetSubstitution`
expansion is the identity. -/
def dollarFree (s : Str) : Bool := s.all (fun c => !(c = dollar))

/-- The literal placeholder `{name}`. -/
def placeholder (name : Str) : Str := lbrace :: (name ++ [rbrace])

/-- A string containing no brace character. -/
def braceFree (s : Str) : Bool := s.all (fun c => !(c = lbrace) && !(c = rbrace))

/-- A JavaScript `Map<string,string>` in insertion order. -/
abbrev VarMap := List (Str × Str)

/-- `Map.get`. -/
def mapGet (m : VarMap) (k : Str) : Option Str :=
  (m.find? (fun p => p.1 = k)).map (fun p => p.2)

/-- The keys of a variable map, in insertion order. -/
def mapKeys (m : VarMap) : List Str := m.map Prod.fst

/-- Lexicographic comparison used to model `Array.prototype.sort()`. -/
def strLe (a b : Str) : Bool :=
  match a, b with
  | [], _ => true
  | _ :: _, [] => false
  | c :: as0, d :: bs0 => if c = d then strLe as0 bs0 else decide (c < d)

/-- Insertion into a sorted list of strings. -/
def insertSorted (x : Str) : List Str → List Str
  | [] => [x]
  | y :: ys => if strLe x y then x :: y :: ys else y :: insertSorted x ys

/-- `Array.from(keys).sort()`. -/
def sortStrs (l : List Str) : List Str := l.foldr insertSorted []

/-- `array.join(',')` / template interpolation of an array. -/
def joinComma : List Str → Str
  | [] => []
  | [x] => x
  | x :: xs => x ++ ',' :: joinComma xs

/-- The message of the `Error` thrown for an invalid variable name
(`helper.ts` lines 332-333): it enumerates the valid names, sorted; the
source template literal continues on an indented second line. -/
def invalidVariableMessage (name : Str) (defaultUrlVariables : VarMap) : Str :=
  squote :: name
    ++ squote :: " is an invalid variable name.\n      Valid variable names: [".data
    ++ joinComma (sortStrs (mapKeys defaultUrlVariables)) ++ "].".data

/-- `helper.ts` lines 318-349: `constructServiceUrl`.  A `none` third
argument models the `null` provided map; `Except.error` models the thrown
`Error`. -/
def constructServiceUrl (parameterizedUrl : Str) (defaultUrlVariables : VarMap)
    (providedUrlVariables : Option VarMap) : Except Str Str :=
  let provided : VarMap := providedUrlVariables.getD []
  match provided.find? (fun p => !(mapKeys defaultUrlVariables).contains p.1) with
  | some bad => Except.error (invalidVariableMessage bad.1 defaultUrlVariables)
  | none =>
    Except.ok (defaultUrlVariables.foldl
      (fun url nv => replaceFirst url (placeholder nv.1) ((mapGet provided nv.1).getD nv.2))
      parameterizedUrl)

/-- The expansion as the specification words it: iterate every name of the
default map in order, choose the provided value if defined else the default,
and replace exactly one occurrence of the literal placeholder `{name}` with
that value. -/
def substituteVariables (template : Str) (defaults : VarMap) (provided : VarMap) : Str :=
  defaults.foldl
    (fun url nv => replaceFirstLiteral url (placeholder nv.1) ((mapGet provided nv.1).getD nv.2))
    template

/-- A sample normalized option record used for concrete evaluations. -/
def sampleOptions : BaseServiceOptions :=
  { serviceUrl := some "https://sample.cloud.ibm.com".data
    disableSslVerification := false
    enableGzipCompression := none
    enableRetries := none
    maxRetries := none
    retryInterval := none
    headers := [("User-Agent", "sdk-core")]
    qs := [("version", "2021-01-01")]
    version := some "2021-01-01"
    jar := none
    extra := [("customField", "customValue")] }

/-! ### concrete inputs used in witnesses and counterexamples -/

/-- An environment whose `IBM_CREDENTIALS_FILE` names a nonexistent path. -/
def c1Env : Environment :=
  { ibmCredentialsFile := some "/missing/credentials.env", cwd := "/cwd", home := "/home" }

/-- An environment with `IBM_CREDENTIALS_FILE` unset. -/
def c1EnvUnset : Environment :=
  { ibmCredentialsFile := none, cwd := "/cwd", home := "/home" }

/-- External properties carrying `disableSsl` present with the value
`false`. -/
def c5ExternalProps : ExternalProps :=
  { url := none, disableSsl := some false, enableGzip := none, enableRetries := none
    maxRetries := none, retryInterval := none }

/-- Options whose SSL verification is currently disabled. -/
def c5Options : BaseServiceOptions := { sampleOptions with disableSslVerification := true }

/-- A file parameter whose data is a canonical file object without an
`options` object, together with explicit metadata. -/
def c6Param : FileWithMetadata :=
  { data := FileValue.fileObj (FileValue.buffer [137, 80, 78, 71]) none
    filename := some "report.txt", contentType := some "text/plain" }

/-- Sniffers that never recognize a content type. -/
def noSniff : Sniffers := { lookupMime := fun _ => none, fromBuffer := fun _ => none }

/-- A file parameter whose data is a canonical file object with its own
nested options, together with explicit metadata. -/
def c6ParamNested : FileWithMetadata :=
  { data := FileValue.fileObj (FileValue.buffer [1, 2])
      (some { filename := some "nested.bin", contentType := some "application/x-nested" })
    filename := some "explicit.txt", contentType := some "text/plain" }

/-- Default options carrying a valid service URL. -/
def sampleDefaultOptions : DefaultOptions :=
  { serviceUrl := JsVal.str "https://sample.cloud.ibm.com/api", headers := [] }

/-- A request description carrying a valid service URL. -/
def sampleRequest : RequestParameters :=
  { defaultOptions := some sampleDefaultOptions, options := [] }

/-- A request description with no default options at all. -/
def emptyRequest : RequestParameters := { defaultOptions := none, options := [] }

/-- An authenticator that always rejects. -/
def failingAuthenticator : DefaultOptions → Except String DefaultOptions :=
  fun _ => Except.error "Authentication failed"

/-- An authenticator that resolves without mutating the options. -/
def okAuthenticator : DefaultOptions → Except String DefaultOptions :=
  fun d => Except.ok d

/-- A transport that always resolves with status 200. -/
def constSend : RequestParameters → Except String Nat := fun _ => Except.ok 200

/-- The template of the C10 counterexample: `{a} {bogus}`. -/
def c10Template : Str := "\x7ba\x7d \x7bbogus\x7d".data

/-- The default map of the C10 counterexample: `a ↦ "{"` and the brace-laden
name `" {bogus" ↦ "GONE"`. -/
def c10Defaults : VarMap :=
  [("a".data, "\x7b".data), (" \x7bbogus".data, "GONE".data)]

/-- The template of the specification's expansion example. -/
def c9Template : Str := "\x7bscheme\x7d://x.com/\x7bver\x7d".data

/-- The default map of the specification's expansion example. -/
def c9Defaults : VarMap := [("scheme".data, "https".data), ("ver".data, "v1".data)]

/-- A template carrying a placeholder foreign to `c9Defaults`. -/
def c10ForeignTemplate : Str := "\x7bscheme\x7d://x.com/\x7bunknown\x7d".data

/-- The template of the C9 counterexample: `{x}`. -/
def c9DollarTemplate : Str := "\x7bx\x7d".data

/-- The default map of the C9 counterexample: `x ↦ "$$"`. -/
def c9DollarDefaults : VarMap := [("x".data, "$$".data)]

/-! ## Theorems -/

/-- A file found by `readFileContent` passes the `fileExistsAtPath` check. -/
theorem readFileContent_isFile {fs : FileSystem} {p c : String}
    (h : readFileContent fs p = some c) : fileExistsAtPath fs p = true := by
  unfold readFileContent at h
  unfold fileExistsAtPath
  rcases hf : fs.find? (fun e => e.1 = p) with _ | q
  · rw [hf] at h
    exact absurd h (by simp)
  · rw [hf] at h ⊢
    rcases q with ⟨path, entry⟩
    cases entry with
    | file c2 => rfl
    | dir => simp at h

/-- **C1** (`code_bug` evidence).  When `IBM_CREDENTIALS_FILE` names a path at
which no file exists (directly or as a directory holding the default file)
and no other location has one, `readCredentialsFile` does not return the
empty record: `filepathToUse` is left undefined and `readFileSync(undefined)`
throws a `TypeError`, with no informational log entry.  With the variable
unset, the same no-file situation degrades gracefully to the empty record
with one informational log entry, as the specification describes. -/
theorem readCredentialsFile_given_path_missing_throws :
    (readCredentialsFile c1Env []).result =
        Except.error "TypeError: path must be a string or Buffer. Received undefined" ∧
    (readCredentialsFile c1Env []).infoLogged = false ∧
    (readCredentialsFile c1EnvUnset []).result = Except.ok [] ∧
    (readCredentialsFile c1EnvUnset []).infoLogged = true := by
  decide

/-- **C7.**  `readCrTokenFile` fails on a missing file and on an existing but
empty file with the same thrown error but distinct logged diagnostics, and
returns the full contents of a non-empty file. -/
theorem readCrTokenFile_missing_and_empty_fault :
    ∀ (fs : FileSystem) (p : String),
      (fileExistsAtPath fs p = false →
        (readCrTokenFile fs p).result =
            Except.error ("Unable to retrieve the CR token value from file: " ++ p) ∧
        (readCrTokenFile fs p).errorLog =
            some ("Expected to find CR token file but the file does not exist: " ++ p)) ∧
      (readFileContent fs p = some "" →
        (readCrTokenFile fs p).result =
            Except.error ("Unable to retrieve the CR token value from file: " ++ p) ∧
        (readCrTokenFile fs p).errorLog =
            some ("Expected to read CR token from file but the file is empty: " ++ p)) ∧
      (∀ c : String, readFileContent fs p = some c → c ≠ "" →
        (readCrTokenFile fs p).result = Except.ok c) ∧
      ("Expected to read CR token from file but the file is empty: " ++ p) ≠
        ("Expected to find CR token file but the file does not exist: " ++ p) := by
  intro fs p
  refine ⟨?_, ?_, ?_, ?_⟩
  · intro h
    simp [readCrTokenFile, h]
  · intro h
    have hex := readFileContent_isFile h
    simp [readCrTokenFile, hex, h]
  · intro c h hc
    have hex := readFileContent_isFile h
    simp [readCrTokenFile, hex, h, hc]
  · intro h
    have h2 : ("Expected to read CR token from file but the file is empty: ").data ++ p.data =
        ("Expected to find CR token file but the file does not exist: ").data ++ p.data := by
      have hd := congrArg String.data h
      simp only [String.data_append] at hd
      exact hd
    have h3 := List.append_cancel_right h2
    exact absurd h3 (by decide)

/-- Concrete instantiation of `readCrTokenFile_missing_and_empty_fault`. -/
theorem readCrTokenFile_missing_and_empty_fault_witness :
    (readCrTokenFile [] "/var/token").result =
        Except.error ("Unable to retrieve the CR token value from file: " ++ "/var/token") ∧
    (readCrTokenFile [("/tmp/token", FsEntry.file "")] "/tmp/token").errorLog =
        some ("Expected to read CR token from file but the file is empty: " ++ "/tmp/token") ∧
    (readCrTokenFile [("/ok/token", FsEntry.file "secret")] "/ok/token").result =
        Except.ok "secret" := by
  refine ⟨((readCrTokenFile_missing_and_empty_fault [] "/var/token").1 (by decide)).1,
    ((readCrTokenFile_missing_and_empty_fault [("/tmp/token", FsEntry.file "")]
        "/tmp/token").2.1 (by decide)).2,
    (readCrTokenFile_missing_and_empty_fault [("/ok/token", FsEntry.file "secret")]
        "/ok/token").2.2.1 "secret" (by decide) (by decide)⟩

/-- **C4.**  A request description without a non-empty string service URL in
its default options yields the immediately-rejected result and invokes
neither the authenticator nor the transport (the event trace is empty); the
model is a total function, reflecting that nothing is thrown synchronously. -/
theorem createRequest_missing_serviceUrl_rejects :
    ∀ (ρ : Type) (authenticate : DefaultOptions → Except String DefaultOptions)
      (sendRequest : RequestParameters → Except String ρ) (p : RequestParameters),
      hasValidServiceUrl p = false →
      createRequest authenticate sendRequest p =
        (Except.error "The service URL is required", []) := by
  intro ρ auth send p h
  obtain ⟨dopts, popts⟩ := p
  rcases dopts with _ | d
  · rfl
  · obtain ⟨su, hdrs⟩ := d
    cases su with
    | str s =>
      simp [hasValidServiceUrl] at h
      simp [createRequest, h]
    | undef => rfl
    | null => rfl
    | bool b => rfl
    | num n => rfl
    | list xs => rfl

/-- Concrete instantiation of `createRequest_missing_serviceUrl_rejects`. -/
theorem createRequest_missing_serviceUrl_rejects_witness :
    createRequest failingAuthenticator constSend emptyRequest =
      (Except.error "The service URL is required", []) :=
  createRequest_missing_serviceUrl_rejects Nat failingAuthenticator constSend emptyRequest
    (by decide)

/-- **C2.**  For every accepted request description, the transport is invoked
only after the authenticator resolved: a rejected authentication propagates
verbatim as the dispatch failure with the transport never invoked, a resolved
authentication is followed by the transport call on the (possibly mutated)
request, and a transport invocation in the trace implies the authentication
resolved. -/
theorem createRequest_authenticate_before_send :
    ∀ (ρ : Type) (authenticate : DefaultOptions → Except String DefaultOptions)
      (sendRequest : RequestParameters → Except String ρ) (p : RequestParameters)
      (d : DefaultOptions) (s : String),
      p.defaultOptions = some d → d.serviceUrl = JsVal.str s → s ≠ "" →
      (∀ e, authenticate d = Except.error e →
        createRequest authenticate sendRequest p =
          (Except.error e, [DispatchEvent.authenticate])) ∧
      (∀ d', authenticate d = Except.ok d' →
        createRequest authenticate sendRequest p =
          (sendRequest { p with defaultOptions := some d' },
            [DispatchEvent.authenticate, DispatchEvent.sendRequest])) ∧
      (DispatchEvent.sendRequest ∈ (createRequest authenticate sendRequest p).2 →
        ∃ d', authenticate d = Except.ok d') := by
  intro ρ auth send p d s hd hs hne
  obtain ⟨dopts, popts⟩ := p
  simp only at hd
  subst hd
  obtain ⟨su, hdrs⟩ := d
  simp only at hs
  subst hs
  refine ⟨?_, ?_, ?_⟩
  · intro e he
    simp [createRequest, hne, he]
  · intro d' h
    simp [createRequest, hne, h]
  · intro hmem
    rcases ha : auth ⟨JsVal.str s, hdrs⟩ with e | d'
    · simp [createRequest, hne, ha] at hmem
    · exact ⟨d', rfl⟩

/-- Concrete instantiation of `createRequest_authenticate_before_send`: a
rejecting authenticator makes the dispatch fail with the same failure and an
authenticate-only trace. -/
theorem createRequest_authenticate_before_send_witness :
    createRequest failingAuthenticator constSend sampleRequest =
      (Except.error "Authentication failed", [DispatchEvent.authenticate]) :=
  (createRequest_authenticate_before_send Nat failingAuthenticator constSend sampleRequest
      sampleDefaultOptions "https://sample.cloud.ibm.com/api" rfl rfl (by decide)).1
    "Authentication failed" rfl

/-- **C8.**  `validateParams` treats a required name as missing exactly when
its value is `undefined`, `null` or the empty string (zero, `false` and the
empty array are not missing), computes the invalid-key list independently,
returns the single aggregated two-heading error when either list is
non-empty, and returns the no-error sentinel exactly when both are empty. -/
theorem validateParams_spec :
    ∀ (ps : List (String × JsVal)) (req all : List String),
      (validateParams (some ps) (some req) (some all) = none ↔
        specMissingList ps req = [] ∧ specInvalidList ps all = []) ∧
      ((specMissingList ps req ≠ [] ∨ specInvalidList ps all ≠ []) →
        validateParams (some ps) (some req) (some all) =
          some (validationErrorMessage (specMissingList ps req) (specInvalidList ps all))) ∧
      isMissing JsVal.undef = true ∧ isMissing JsVal.null = true ∧
      isMissing (JsVal.str "") = true ∧ isMissing (JsVal.num 0) = false ∧
      isMissing (JsVal.bool false) = false ∧ isMissing (JsVal.list []) = false := by
  intro ps req all
  have hm : validateParams (some ps) (some req) (some all) =
      if (specMissingList ps req).isEmpty && (specInvalidList ps all).isEmpty then none
      else some (validationErrorMessage (specMissingList ps req) (specInvalidList ps all)) := rfl
  have key : ∀ (M I : List String) (m : Option String),
      m = (if M.isEmpty && I.isEmpty then none else some (validationErrorMessage M I)) →
      (m = none ↔ M = [] ∧ I = []) ∧
        ((M ≠ [] ∨ I ≠ []) → m = some (validationErrorMessage M I)) := by
    intro M I m hm2
    subst hm2
    rcases M with _ | ⟨a, as⟩ <;> rcases I with _ | ⟨b, bs⟩ <;> simp
  exact ⟨(key _ _ _ hm).1, (key _ _ _ hm).2, rfl, rfl, rfl, rfl, rfl, rfl⟩

/-- Concrete instantiation of `validateParams_spec`, the specification's own
example: `b` missing, `c` invalid, one aggregated error. -/
theorem validateParams_spec_witness :
    validateParams (some [("a", JsVal.num 1), ("c", JsVal.num 2)]) (some ["a", "b"])
        (some ["a", "b"]) =
      some "Parameter validation errors:\n  Missing required parameters: b\n  Found invalid parameters: c" := by
  have h := (validateParams_spec [("a", JsVal.num 1), ("c", JsVal.num 2)] ["a", "b"]
      ["a", "b"]).2.1 (Or.inl (by decide))
  rw [h]
  decide

/-- **C5** (counterexample).  An external record carrying the recognized
property `disableSsl` with value `false` does not overwrite the live
`disableSslVerification` (the code requires `disableSsl === true`), so
`configureService` does not overwrite every recognized property that is
present in the external source. -/
theorem configureService_present_key_not_overwritten :
    configureService "my-service" (some c5ExternalProps) c5Options = Except.ok c5Options ∧
    c5ExternalProps.disableSsl = some false ∧
    c5Options.disableSslVerification = true := by
  decide

/-- **C5** (amended).  `configureService` throws when no service name is
supplied; otherwise it overwrites `serviceUrl` only when `url` is present and
non-empty (stripping one trailing slash), `disableSslVerification` and
`enableGzipCompression` only when `disableSsl`/`enableGzip` are present and
literally `true`, and `enableRetries`/`maxRetries`/`retryInterval` whenever
present — leaving every other field of the normalized options unchanged. -/
theorem configureService_overlay_amended :
    ∀ (name : String) (ext : Option ExternalProps) (opts : BaseServiceOptions),
      (name = "" → configureService name ext opts =
        Except.error "Error configuring service. Service name is required.") ∧
      (name ≠ "" → ∃ opts', configureService name ext opts = Except.ok opts' ∧
        opts'.headers = opts.headers ∧ opts'.qs = opts.qs ∧ opts'.version = opts.version ∧
        opts'.jar = opts.jar ∧ opts'.extra = opts.extra ∧
        opts'.serviceUrl = (match ext.bind ExternalProps.url with
          | some u => if !u.isEmpty then some (stripTrailingSlash u) else opts.serviceUrl
          | none => opts.serviceUrl) ∧
        opts'.disableSslVerification =
          (if ext.bind ExternalProps.disableSsl = some true then true
           else opts.disableSslVerification) ∧
        opts'.enableGzipCompression =
          (if ext.bind ExternalProps.enableGzip = some true then some true
           else opts.enableGzipCompression) ∧
        opts'.enableRetries = (match ext.bind ExternalProps.enableRetries with
          | some b => some b
          | none => opts.enableRetries) ∧
        opts'.maxRetries = (match ext.bind ExternalProps.maxRetries with
          | some n => some n
          | none => opts.maxRetries) ∧
        opts'.retryInterval = (match ext.bind ExternalProps.retryInterval with
          | some n => some n
          | none => opts.retryInterval)) := by
  intro name ext opts
  constructor
  · intro h
    simp [configureService, h]
  · intro h
    refine ⟨objectAssign opts (readOptionsFromExternalConfig ext),
      by simp [configureService, h], rfl, rfl, rfl, rfl, rfl, ?_, ?_, ?_, ?_, ?_, ?_⟩
    · rcases ext with _ | p
      · rfl
      · rcases hu : p.url with _ | u
        · simp [objectAssign, readOptionsFromExternalConfig, hu]
        · cases he : u.isEmpty <;>
            simp [objectAssign, readOptionsFromExternalConfig, hu, he]
    · rcases ext with _ | p
      · rfl
      · by_cases hd : p.disableSsl = some true <;>
          simp [objectAssign, readOptionsFromExternalConfig, hd]
    · rcases ext with _ | p
      · rfl
      · by_cases hg : p.enableGzip = some true <;>
          simp [objectAssign, readOptionsFromExternalConfig, hg]
    · rcases ext with _ | p
      · rfl
      · rcases hr : p.enableRetries with _ | b <;>
          simp [objectAssign, readOptionsFromExternalConfig, hr]
    · rcases ext with _ | p
      · rfl
      · rcases hr : p.maxRetries with _ | n <;>
          simp [objectAssign, readOptionsFromExternalConfig, hr]
    · rcases ext with _ | p
      · rfl
      · rcases hr : p.retryInterval with _ | n <;>
          simp [objectAssign, readOptionsFromExternalConfig, hr]

/-- Concrete instantiation of `configureService_overlay_amended`. -/
theorem configureService_overlay_amended_witness :
    ∃ opts', configureService "my-service" (some c5ExternalProps) c5Options = Except.ok opts' ∧
      opts'.headers = c5Options.headers := by
  obtain ⟨o, h1, h2, -⟩ :=
    (configureService_overlay_amended "my-service" (some c5ExternalProps) c5Options).2
      (by decide)
  exact ⟨o, h1, h2⟩

/-- `stripTrailingSlash` leaves no trailing slash unless the input ended in
two. -/
theorem stripTrailingSlash_no_trailing (s : Str) (h : endsDoubleSlash s = false) :
    endsSlash (stripTrailingSlash s) = false := by
  unfold endsDoubleSlash at h
  unfold stripTrailingSlash
  rcases hs : s.reverse with _ | ⟨c, rest⟩
  · rw [hs] at h
    simp [hs, endsSlash]
  · rw [hs] at h
    by_cases hc : c = '/'
    · subst hc
      rcases rest with _ | ⟨d, rest2⟩
      · simp [endsSlash]
      · by_cases hd : d = '/'
        · subst hd
          simp at h
        · simp [endsSlash, List.reverse_reverse, hd]
    · simp [endsSlash, hs, hc]

/-- **C3** (counterexample).  `setServiceUrl` with an input ending in `//`
stores a `serviceUrl` that still ends in `/`, because `stripTrailingSlash`
removes only one trailing slash. -/
theorem setServiceUrl_double_slash_counterexample :
    endsSlash (((setServiceUrl sampleOptions "https://host//".data).serviceUrl).getD []) =
      true := by
  decide

/-- **C3** (amended).  Provided no supplied URL string ends in `//` (and the
static default URL and previously stored value carry no trailing slash), the
`serviceUrl` stored after construction, after `setServiceUrl` and after
`configureService` never ends in `/`. -/
theorem serviceUrl_never_trailing_slash_amended :
    (∀ (defaultUrl url0 serviceUrl0 : Option Str),
      (∀ s, url0 = some s → endsDoubleSlash s = false) →
      (∀ s, serviceUrl0 = some s → endsDoubleSlash s = false) →
      (∀ s, defaultUrl = some s → endsSlash s = false) →
      ∀ s, constructorServiceUrl defaultUrl url0 serviceUrl0 = some s → endsSlash s = false) ∧
    (∀ (opts : BaseServiceOptions) (url : Str),
      endsDoubleSlash url = false →
      (∀ s, opts.serviceUrl = some s → endsSlash s = false) →
      ∀ s, (setServiceUrl opts url).serviceUrl = some s → endsSlash s = false) ∧
    (∀ (name : String) (ext : Option ExternalProps) (opts opts' : BaseServiceOptions),
      (∀ p u, ext = some p → p.url = some u → endsDoubleSlash u = false) →
      (∀ s, opts.serviceUrl = some s → endsSlash s = false) →
      configureService name ext opts = Except.ok opts' →
      ∀ s, opts'.serviceUrl = some s → endsSlash s = false) := by
  refine ⟨?_, ?_, ?_⟩
  · intro defaultUrl url0 serviceUrl0 hurl hsvc hdef s h
    simp only [constructorServiceUrl] at h
    have hsu : ∀ t : Str,
        (if jsTruthyStr url0 && !jsTruthyStr serviceUrl0 then url0 else serviceUrl0) = some t →
        endsDoubleSlash t = false := by
      intro t ht
      cases hb : (jsTruthyStr url0 && !jsTruthyStr serviceUrl0) <;> simp [hb] at ht
      · exact hsvc t ht
      · exact hurl t ht
    revert h hsu
    generalize (if jsTruthyStr url0 && !jsTruthyStr serviceUrl0 then url0 else serviceUrl0) = A
    intro h hsu
    rcases A with _ | t
    · simp at h
      exact hdef s h
    · cases he : t.isEmpty <;> simp [he] at h
      · rw [← h]
        exact stripTrailingSlash_no_trailing t (hsu t rfl)
      · rcases t with _ | ⟨c, cs⟩
        · rw [← h]
          decide
        · simp at he
  · intro opts url hnd hprev s h
    unfold setServiceUrl at h
    cases he : url.isEmpty <;> simp [he] at h
    · rw [← h]
      exact stripTrailingSlash_no_trailing url hnd
    · exact hprev s h
  · intro name ext opts opts' hext hprev hok s h
    by_cases hn : name = ""
    · simp [configureService, hn] at hok
    · simp [configureService, hn] at hok
      subst hok
      rcases ext with _ | p
      · simp [objectAssign, readOptionsFromExternalConfig] at h
        exact hprev s h
      · rcases hu : p.url with _ | u
        · simp [objectAssign, readOptionsFromExternalConfig, hu] at h
          exact hprev s h
        · cases he : u.isEmpty <;>
            simp [objectAssign, readOptionsFromExternalConfig, hu, he] at h
          · rw [← h]
            exact stripTrailingSlash_no_trailing u (hext p u rfl hu)
          · exact hprev s h

/-- Concrete instantiation of `serviceUrl_never_trailing_slash_amended`. -/
theorem serviceUrl_never_trailing_slash_amended_witness :
    endsSlash (((setServiceUrl sampleOptions "https://example.com/".data).serviceUrl).getD []) =
      false := by
  have h := serviceUrl_never_trailing_slash_amended.2.1 sampleOptions
      "https://example.com/".data (by decide)
      (by
        intro s hs
        injection hs with h2
        subst h2
        decide)
  exact h (((setServiceUrl sampleOptions "https://example.com/".data).serviceUrl).getD [])
    (by decide)

/-- `resolveContentType` never changes the value slot. -/
theorem resolveContentType_value (sn : Sniffers) (f : FileObject) :
    (resolveContentType sn f).value = f.value := rfl

/-- `resolveContentType` never changes the filename option. -/
theorem resolveContentType_filename (sn : Sniffers) (f : FileObject) :
    (resolveContentType sn f).options.filename = f.options.filename := rfl

/-- `resolveFilename` never changes the value slot. -/
theorem resolveFilename_value (f : FileObject) : (resolveFilename f).value = f.value := rfl

/-- `resolveFilename` never changes the content-type option. -/
theorem resolveFilename_contentType (f : FileObject) :
    (resolveFilename f).options.contentType = f.options.contentType := rfl

/-- `coerceStringValue` never changes the options. -/
theorem coerceStringValue_options (f : FileObject) :
    (coerceStringValue f).options = f.options := by
  unfold coerceStringValue
  split <;> rfl

/-- **C6** (counterexample).  When the nested canonical descriptor has no
`options` object, the explicitly supplied `fileParam.filename` and
`fileParam.contentType` are discarded: the result carries the placeholder
filename and the sniffed/default content type instead. -/
theorem buildRequestFileObject_no_nested_options_counterexample :
    (buildRequestFileObject noSniff c6Param).options.filename = some "_" ∧
    (buildRequestFileObject noSniff c6Param).options.contentType =
        some "application/octet-stream" ∧
    c6Param.filename = some "report.txt" ∧
    c6Param.contentType = some "text/plain" ∧
    c6Param.data = FileValue.fileObj (FileValue.buffer [137, 80, 78, 71]) none ∧
    jsTruthyFile (FileValue.buffer [137, 80, 78, 71]) = true := by
  refine ⟨rfl, rfl, rfl, rfl, rfl, rfl⟩

/-- **C6** (amended).  When `fileParam.data` is a canonical descriptor with a
truthy value: its value is reused (after the string-to-buffer coercion); when
the descriptor carries an `options` object, a truthy explicit
`fileParam.filename` wins (modulo `basename`) and a truthy explicit
`fileParam.contentType` wins over the nested defaults; when the descriptor
has no `options` object, the explicit metadata is discarded — the result is
the same as if none had been supplied. -/
theorem buildRequestFileObject_nested_descriptor_amended :
    ∀ (sn : Sniffers) (p : FileWithMetadata) (v : FileValue) (o : FileOptions),
      (p.data = FileValue.fileObj v (some o) → jsTruthyFile v = true →
        ((buildRequestFileObject sn p).value =
          (match v with
           | FileValue.str s => FileValue.buffer (stringToBytes s)
           | w => w)) ∧
        (∀ f, p.filename = some f → f ≠ "" →
          (buildRequestFileObject sn p).options.filename = some (basenameModel f)) ∧
        (∀ c, p.contentType = some c → c ≠ "" →
          (buildRequestFileObject sn p).options.contentType = some c)) ∧
      (p.data = FileValue.fileObj v none → jsTruthyFile v = true →
        buildRequestFileObject sn p =
          buildRequestFileObject sn { data := p.data, filename := none, contentType := none }) := by
  intro sn p v o
  obtain ⟨dat, fn, ct⟩ := p
  constructor
  · intro hd htr
    simp only at hd
    subst hd
    have hcanon : canonicalShape ⟨FileValue.fileObj v (some o), fn, ct⟩ =
        { value := v
          options := { filename := jsOrStr fn o.filename
                       contentType := jsOrStr ct o.contentType } } := by
      simp [canonicalShape, htr]
    refine ⟨?_, ?_, ?_⟩
    · unfold buildRequestFileObject
      rw [resolveContentType_value, resolveFilename_value, hcanon]
      unfold coerceStringValue
      cases v <;> rfl
    · intro f hf hne
      simp only at hf
      subst hf
      unfold buildRequestFileObject
      rw [resolveContentType_filename]
      have hopts : (coerceStringValue (canonicalShape ⟨FileValue.fileObj v (some o), some f, ct⟩)).options
          = { filename := jsOrStr (some f) o.filename
              contentType := jsOrStr ct o.contentType } := by
        rw [coerceStringValue_options, hcanon]
      unfold resolveFilename
      rw [hopts]
      simp [jsOrStr, hne]
    · intro c hc hcne
      simp only at hc
      subst hc
      unfold buildRequestFileObject
      have hct : (resolveFilename (coerceStringValue
          (canonicalShape ⟨FileValue.fileObj v (some o), fn, some c⟩))).options.contentType
          = some c := by
        rw [resolveFilename_contentType, coerceStringValue_options, hcanon]
        simp [jsOrStr, hcne]
      unfold resolveContentType
      rw [hct]
      simp [hcne, hct]
  · intro hd htr
    simp only at hd
    subst hd
    have hsame : canonicalShape ⟨FileValue.fileObj v none, fn, ct⟩ =
        canonicalShape ⟨FileValue.fileObj v none, none, none⟩ := by
      simp [canonicalShape, htr]
    unfold buildRequestFileObject
    rw [hsame]

/-- Concrete instantiation of `buildRequestFileObject_nested_descriptor_amended`:
with a nested options object present, the explicit metadata wins. -/
theorem buildRequestFileObject_nested_descriptor_amended_witness :
    (buildRequestFileObject noSniff c6ParamNested).options.filename = some "explicit.txt" ∧
    (buildRequestFileObject noSniff c6ParamNested).options.contentType = some "text/plain" := by
  obtain ⟨hv, hf, hc⟩ :=
    (buildRequestFileObject_nested_descriptor_amended noSniff c6ParamNested
      (FileValue.buffer [1, 2])
      { filename := some "nested.bin", contentType := some "application/x-nested" }).1 rfl rfl
  refine ⟨?_, hc "text/plain" rfl (by decide)⟩
  have h2 := hf "explicit.txt" rfl (by decide)
  rw [h2]
  decide

/-- `hasPrefixL` decides the prefix relation. -/
theorem hasPrefixL_iff : ∀ (pat s : Str), hasPrefixL pat s = true ↔ pat <+: s := by
  intro pat
  induction pat with
  | nil =>
    intro s
    simp [hasPrefixL]
  | cons p ps ih =>
    intro s
    cases s with
    | nil => simp [hasPrefixL]
    | cons c cs => simp [hasPrefixL, ih, List.cons_prefix_cons]

/-- A successful `firstOccSplit` really splits the string around the
pattern. -/
theorem firstOccSplit_some_eq :
    ∀ (s pat x y : Str), firstOccSplit pat s = some (x, y) → s = x ++ pat ++ y := by
  intro s
  induction s with
  | nil =>
    intro pat x y h
    unfold firstOccSplit at h
    by_cases hp : hasPrefixL pat [] = true
    · rw [if_pos hp] at h
      obtain ⟨h1, h2⟩ := Prod.mk.inj (Option.some.inj h)
      have hpe : pat = [] := by
        have := (hasPrefixL_iff pat []).mp hp
        simpa using this
      rw [← h1, ← h2, hpe]
      rfl
    · rw [if_neg hp] at h
      cases h
  | cons c rest ih =>
    intro pat x y h
    unfold firstOccSplit at h
    by_cases hp : hasPrefixL pat (c :: rest) = true
    · rw [if_pos hp] at h
      obtain ⟨h1, h2⟩ := Prod.mk.inj (Option.some.inj h)
      obtain ⟨y2, hy⟩ := (hasPrefixL_iff pat (c :: rest)).mp hp
      rw [← h1, ← h2, List.nil_append, ← hy, List.drop_left]
    · rw [if_neg hp] at h
      rcases hf : firstOccSplit pat rest with _ | ⟨x2, y2⟩
      · rw [hf] at h
        cases h
      · rw [hf] at h
        simp only [Option.map_some'] at h
        obtain ⟨h1, h2⟩ := Prod.mk.inj (Option.some.inj h)
        rw [← h1, ← h2, ih pat x2 y2 hf]
        rfl

/-- A failed `firstOccSplit` means the pattern does not occur. -/
theorem firstOccSplit_none_no_occurrence :
    ∀ (s pat : Str), firstOccSplit pat s = none → ¬ pat <:+: s := by
  intro s
  induction s with
  | nil =>
    intro pat h hinf
    unfold firstOccSplit at h
    by_cases hp : hasPrefixL pat [] = true
    · rw [if_pos hp] at h
      cases h
    · rw [List.infix_nil] at hinf
      subst hinf
      exact hp rfl
  | cons c rest ih =>
    intro pat h hinf
    unfold firstOccSplit at h
    by_cases hp : hasPrefixL pat (c :: rest) = true
    · rw [if_pos hp] at h
      cases h
    · rw [if_neg hp] at h
      rcases List.infix_cons_iff.mp hinf with hpre | hinf2
      · exact hp ((hasPrefixL_iff pat (c :: rest)).mpr hpre)
      · rcases hf : firstOccSplit pat rest with _ | p
        · exact ih pat hf hinf2
        · rw [hf] at h
          cases h

/-- On a dollar-free replacement string, `GetSubstitution` is the
identity. -/
theorem getSubstitution_dollarFree :
    ∀ (r m b a : Str), dollarFree r = true → getSubstitution m b a r = r := by
  intro r
  induction r with
  | nil =>
    intro m b a _
    rfl
  | cons c rest ih =>
    intro m b a h
    simp only [dollarFree, List.all_cons, Bool.and_eq_true] at h
    have hc : ¬ c = dollar := by simpa using h.1
    unfold getSubstitution
    rw [if_neg hc, ih m b a h.2]

/-- For dollar-free replacement values the program's replacement coincides
with the specification's literal replacement. -/
theorem replaceFirst_eq_literal (s pat repl : Str) (h : dollarFree repl = true) :
    replaceFirst s pat repl = replaceFirstLiteral s pat repl := by
  unfold replaceFirst replaceFirstLiteral
  rcases hf : firstOccSplit pat s with _ | ⟨b, a⟩
  · rfl
  · dsimp only
    rw [getSubstitution_dollarFree repl pat b a h]

/-- The per-name passes of `constructServiceUrl` compute the literal
expansion whenever every value of both maps is dollar-free. -/
theorem foldl_replace_eq_substitute :
    ∀ (dv pv : VarMap) (t : Str),
      (∀ p ∈ dv, dollarFree p.2 = true) → (∀ p ∈ pv, dollarFree p.2 = true) →
      dv.foldl (fun url nv => replaceFirst url (placeholder nv.1) ((mapGet pv nv.1).getD nv.2))
          t = substituteVariables t dv pv := by
  intro dv
  induction dv with
  | nil =>
    intro pv t _ _
    rfl
  | cons kv tl ih =>
    intro pv t hdv hpv
    have hval : dollarFree ((mapGet pv kv.1).getD kv.2) = true := by
      rcases hg : mapGet pv kv.1 with _ | v
      · simpa using hdv kv (by simp)
      · unfold mapGet at hg
        rcases hfind : pv.find? (fun p => p.1 = kv.1) with _ | q
        · rw [hfind] at hg
          cases hg
        · rw [hfind] at hg
          simp only [Option.map_some'] at hg
          have hq := List.mem_of_find?_eq_some hfind
          have hqd := hpv q hq
          rw [Option.getD_some, ← Option.some.inj hg]
          exact hqd
    rw [List.foldl_cons, replaceFirst_eq_literal t (placeholder kv.1) _ hval]
    have h2 := ih pv (replaceFirstLiteral t (placeholder kv.1) ((mapGet pv kv.1).getD kv.2))
      (fun p hp => hdv p (by simp [hp])) hpv
    unfold substituteVariables at h2 ⊢
    rw [List.foldl_cons]
    exact h2

/-- **C9** (counterexample).  `String.prototype.replace` applies the
`GetSubstitution` dollar escapes to the replacement string, so with the
default value `$$` the program expands `{x}` to `$`, not to the value
itself: the placeholder is not replaced by the provided-else-default
value. -/
theorem constructServiceUrl_dollar_value_counterexample :
    constructServiceUrl c9DollarTemplate c9DollarDefaults none = Except.ok "$".data ∧
    substituteVariables c9DollarTemplate c9DollarDefaults [] = "$$".data ∧
    ("$".data : Str) ≠ "$$".data := by
  refine ⟨by decide, by decide, by decide⟩

/-- **C9** (amended).  With every provided name occurring among the default
names (or a `null` provided map) and every value of both maps free of the
dollar character, `constructServiceUrl` succeeds and returns exactly the
specification's expansion: one pass per default name, each replacing one
occurrence of its literal placeholder by the provided-else-default value. -/
theorem constructServiceUrl_expansion :
    ∀ (t : Str) (dv : VarMap) (pv : VarMap),
      (∀ p ∈ pv, (mapKeys dv).contains p.1 = true) →
      (∀ p ∈ dv, dollarFree p.2 = true) →
      (∀ p ∈ pv, dollarFree p.2 = true) →
      constructServiceUrl t dv (some pv) = Except.ok (substituteVariables t dv pv) ∧
      constructServiceUrl t dv none = Except.ok (substituteVariables t dv []) := by
  intro t dv pv h hdv hpv
  constructor
  · have hf : pv.find? (fun p => !(mapKeys dv).contains p.1) = none := by
      apply List.find?_eq_none.mpr
      intro x hx
      rw [h x hx]
      decide
    unfold constructServiceUrl
    simp only [Option.getD_some]
    rw [hf]
    exact congrArg Except.ok (foldl_replace_eq_substitute dv pv t hdv hpv)
  · exact congrArg Except.ok (foldl_replace_eq_substitute dv [] t hdv (by simp))

/-- Concrete instantiation of `constructServiceUrl_expansion`, the
specification's own example. -/
theorem constructServiceUrl_expansion_witness :
    constructServiceUrl c9Template c9Defaults none = Except.ok "https://x.com/v1".data := by
  have h := (constructServiceUrl_expansion c9Template c9Defaults [] (by simp) (by decide)
    (by simp)).2
  rw [h]
  set_option maxRecDepth 8000 in decide

/-- Splice characterization of `replaceFirst`: either the pattern does not
occur and the string is unchanged, or the result replaces one occurrence by
the `GetSubstitution` expansion of the replacement. -/
theorem replaceFirst_splice :
    ∀ (s pat v : Str),
      (¬ pat <:+: s ∧ replaceFirst s pat v = s) ∨
      (∃ x y, s = x ++ pat ++ y ∧
        replaceFirst s pat v = x ++ getSubstitution pat x y v ++ y) := by
  intro s pat v
  rcases hf : firstOccSplit pat s with _ | ⟨b, a⟩
  · left
    refine ⟨firstOccSplit_none_no_occurrence s pat hf, ?_⟩
    unfold replaceFirst
    rw [hf]
  · right
    refine ⟨b, a, firstOccSplit_some_eq s pat b a hf, ?_⟩
    unfold replaceFirst
    rw [hf]

/-- `placeholder` prepended to a tail, in cons-normal form. -/
theorem placeholder_append (n y : Str) :
    placeholder n ++ y = lbrace :: (n ++ rbrace :: y) := by
  simp [placeholder]

/-- Two brace-free names closed by `}` and followed by arbitrary tails agree
when the combined strings agree. -/
theorem braceFree_name_eq :
    ∀ (n b y w : Str), braceFree n = true → braceFree b = true →
      n ++ rbrace :: y = b ++ rbrace :: w → n = b := by
  intro n
  induction n with
  | nil =>
    intro b y w _ hb h
    cases b with
    | nil => rfl
    | cons d bs =>
      simp only [List.nil_append, List.cons_append] at h
      obtain ⟨hd, -⟩ := List.cons.inj h
      simp [braceFree, ← hd] at hb
  | cons c cs ih =>
    intro b y w hn hb h
    cases b with
    | nil =>
      simp only [List.nil_append, List.cons_append] at h
      obtain ⟨hd, -⟩ := List.cons.inj h
      simp [braceFree, hd] at hn
    | cons d bs =>
      simp only [List.cons_append] at h
      obtain ⟨hd, ht⟩ := List.cons.inj h
      simp only [braceFree, List.all_cons, Bool.and_eq_true] at hn hb
      rw [hd, ih bs y w (by simp [braceFree, hn.2]) (by simp [braceFree, hb.2]) ht]

/-- A `{`-headed segment carved out of `n ++ '}' :: y`, with `n` brace-free,
must start inside `y`; the lemma returns the exact split. -/
theorem brace_segment_in_tail :
    ∀ (n u y r : Str), braceFree n = true →
      n ++ rbrace :: y = u ++ lbrace :: r →
      ∃ u₂, y = u₂ ++ lbrace :: r ∧ u = n ++ rbrace :: u₂ := by
  intro n
  induction n with
  | nil =>
    intro u y r _ h
    cases u with
    | nil =>
      rw [List.nil_append, List.nil_append] at h
      obtain ⟨hd, -⟩ := List.cons.inj h
      exact absurd hd (by decide)
    | cons e u2 =>
      rw [List.nil_append, List.cons_append] at h
      obtain ⟨hd, ht⟩ := List.cons.inj h
      exact ⟨u2, ht, by rw [← hd, List.nil_append]⟩
  | cons c cs ih =>
    intro u y r hn h
    simp only [braceFree, List.all_cons, Bool.and_eq_true] at hn
    cases u with
    | nil =>
      rw [List.cons_append, List.nil_append] at h
      obtain ⟨hd, -⟩ := List.cons.inj h
      simp [hd] at hn
    | cons e u2 =>
      rw [List.cons_append, List.cons_append] at h
      obtain ⟨hd, ht⟩ := List.cons.inj h
      obtain ⟨u₂, h1, h2⟩ := ih u2 y r (by simp [braceFree, hn.2]) ht
      exact ⟨u₂, h1, by rw [← hd, h2, List.cons_append]⟩

/-- An occurrence of the placeholder of `b` cannot overlap an occurrence of
the placeholder of a different brace-free name `n`: it lies wholly in the
part before or the part after. -/
theorem placeholder_occurrence_disjoint :
    ∀ (b n : Str), braceFree b = true → braceFree n = true → b ≠ n →
      ∀ (x y u w : Str), x ++ placeholder n ++ y = u ++ placeholder b ++ w →
        placeholder b <:+: x ∨ placeholder b <:+: y := by
  intro b n hb hn hne x
  induction x with
  | nil =>
    intro y u w h
    rw [List.append_assoc, List.append_assoc, placeholder_append, placeholder_append,
      List.nil_append] at h
    cases u with
    | nil =>
      rw [List.nil_append] at h
      obtain ⟨-, ht⟩ := List.cons.inj h
      exact absurd (braceFree_name_eq n b y w hn hb ht).symm hne
    | cons e u2 =>
      rw [List.cons_append] at h
      obtain ⟨-, ht⟩ := List.cons.inj h
      obtain ⟨u₂, h1, -⟩ := brace_segment_in_tail n u2 y (b ++ rbrace :: w) hn ht
      right
      exact ⟨u₂, w, by rw [List.append_assoc, placeholder_append, h1]⟩
  | cons a x2 ih =>
    intro y u w h
    rw [List.append_assoc, List.append_assoc, placeholder_append, placeholder_append,
      List.cons_append] at h
    cases u with
    | nil =>
      rw [List.nil_append] at h
      obtain ⟨hd, ht⟩ := List.cons.inj h
      obtain ⟨u₂, h1, h2⟩ := brace_segment_in_tail b x2 w (n ++ rbrace :: y) hb ht.symm
      left
      refine ⟨[], u₂, ?_⟩
      rw [List.nil_append, placeholder_append, hd, h2]
    | cons e u2 =>
      rw [List.cons_append] at h
      obtain ⟨-, ht⟩ := List.cons.inj h
      have ht2 : x2 ++ placeholder n ++ y = u2 ++ placeholder b ++ w := by
        rw [List.append_assoc, List.append_assoc, placeholder_append, placeholder_append]
        exact ht
      rcases ih y u2 w ht2 with h2 | h2
      · exact Or.inl (List.infix_cons_iff.mpr (Or.inr h2))
      · exact Or.inr h2

/-- Replacing one occurrence of the placeholder of `n` preserves every
occurrence of the placeholder of a different brace-free name `b`. -/
theorem infix_replaceFirst (b n v s : Str) (hb : braceFree b = true)
    (hn : braceFree n = true) (hne : b ≠ n) (hocc : placeholder b <:+: s) :
    placeholder b <:+: replaceFirst s (placeholder n) v := by
  rcases replaceFirst_splice s (placeholder n) v with ⟨-, heq⟩ | ⟨x, y, hs, hr⟩
  · rw [heq]
    exact hocc
  · rw [hr]
    obtain ⟨u, w, hocc2⟩ := hocc
    rcases placeholder_occurrence_disjoint b n hb hn hne x y u w (by rw [← hs, hocc2]) with
      h | h
    · refine h.trans ?_
      rw [List.append_assoc]
      exact (List.prefix_append x (getSubstitution (placeholder n) x y v ++ y)).isInfix
    · refine h.trans ?_
      exact (List.suffix_append (x ++ getSubstitution (placeholder n) x y v) y).isInfix

/-- Folding the per-name substitution passes over a map whose keys are all
brace-free and different from `name` preserves every occurrence of
`placeholder name`. -/
theorem foldl_replace_preserves :
    ∀ (dv : VarMap) (pv : VarMap) (t name : Str),
      (∀ k ∈ mapKeys dv, braceFree k = true) → braceFree name = true →
      (mapKeys dv).contains name = false →
      placeholder name <:+: t →
      placeholder name <:+:
        dv.foldl (fun url nv => replaceFirst url (placeholder nv.1) ((mapGet pv nv.1).getD nv.2))
          t := by
  intro dv
  induction dv with
  | nil =>
    intro pv t name _ _ _ hocc
    exact hocc
  | cons kv tl ih =>
    intro pv t name hkeys hname hcont hocc
    simp only [mapKeys, List.map_cons, List.contains_cons, Bool.or_eq_false_iff] at hcont
    have hk : braceFree kv.1 = true := hkeys kv.1 (by simp [mapKeys])
    have hne : name ≠ kv.1 := by
      intro hEq
      have := hcont.1
      rw [hEq] at this
      simp at this
    rw [List.foldl_cons]
    exact ih pv _ name (fun k hkmem => hkeys k (by simp [mapKeys] at hkmem ⊢; exact Or.inr hkmem))
      hname (by simpa [mapKeys] using hcont.2)
      (infix_replaceFirst name kv.1 ((mapGet pv kv.1).getD kv.2) t hname hk hne hocc)

/-- **C10** (counterexample).  With a default map whose second key itself
contains a brace, expansion can destroy the template's foreign placeholder
`{bogus}`: the result is `GONE`, in which `{bogus}` no longer occurs. -/
theorem constructServiceUrl_foreign_placeholder_counterexample :
    constructServiceUrl c10Template c10Defaults none = Except.ok "GONE".data ∧
    braceFree "bogus".data = true ∧
    (mapKeys c10Defaults).contains "bogus".data = false ∧
    placeholder "bogus".data <:+: c10Template ∧
    ¬ placeholder "bogus".data <:+: "GONE".data := by
  refine ⟨by decide, by decide, by decide, by decide, by decide⟩

/-- **C10** (amended).  Restricted to default maps whose keys are brace-free,
any placeholder-shaped substring `{name}` of the template whose brace-free
name is not a key of the default map still occurs verbatim in the string
returned by `constructServiceUrl`. -/
theorem constructServiceUrl_untouched_foreign_placeholders :
    ∀ (t : Str) (dv : VarMap) (pv : Option VarMap) (u name : Str),
      (∀ k ∈ mapKeys dv, braceFree k = true) →
      constructServiceUrl t dv pv = Except.ok u →
      braceFree name = true →
      (mapKeys dv).contains name = false →
      placeholder name <:+: t →
      placeholder name <:+: u := by
  intro t dv pv u name hkeys hok hname hcont hocc
  unfold constructServiceUrl at hok
  dsimp only at hok
  rcases hfind : (pv.getD []).find? (fun p => !(mapKeys dv).contains p.1) with _ | bad
  · rw [hfind] at hok
    simp only at hok
    obtain rfl : (dv.foldl
        (fun url nv => replaceFirst url (placeholder nv.1)
          ((mapGet (pv.getD []) nv.1).getD nv.2)) t) = u := by
      injection hok
    exact foldl_replace_preserves dv (pv.getD []) t name hkeys hname hcont hocc
  · rw [hfind] at hok
    simp at hok

/-- Concrete instantiation of
`constructServiceUrl_untouched_foreign_placeholders`: the foreign placeholder
`{unknown}` survives a successful expansion. -/
theorem constructServiceUrl_untouched_foreign_placeholders_witness :
    placeholder "unknown".data <:+: "https://x.com/\x7bunknown\x7d".data :=
  constructServiceUrl_untouched_foreign_placeholders c10ForeignTemplate c9Defaults none
    "https://x.com/\x7bunknown\x7d".data "unknown".data (by decide)
    (by set_option maxRecDepth 8000 in decide) (by decide) (by decide) (by decide)

end NodeSdkCore
